import Mathlib

set_option maxRecDepth 100000

/-!
Shallow embedding of `src/logs_analyzer.py` (nginx log analyzer) for checking
the natural-language specification against the code.

Modelling conventions:
* Python floats are modelled as exact rationals (`ℚ`); the constant `0.2` is
  modelled as `1/5`.  No claim here depends on binary floating-point rounding.
* Python exceptions are modelled by `Except PyError`; each constructor names
  the Python exception class it stands for.
* The two regular expressions of the source (`NGINX_PATTERN` and the filename
  pattern of `get_latest_logfile`, plus the date pattern of `log_date`) are
  embedded as data (`Re`) and interpreted by a backtracking matcher `mrun`
  with the semantics of Python `re` (lazy and greedy stars, lookahead,
  named groups, `$` matching at the end or before a final newline, `.` not
  matching a newline).  The matcher carries a fuel argument that strictly
  dominates the depth of the backtracking search, so running out of fuel is
  impossible on the inputs used here.
* `statistics.median`, `float()`, `datetime.strptime(_, "%Y%m%d")`,
  `datetime.__lt__`, `os.path.join` and `str.__format__`-style zero padding
  are modelled by the correspondingly named definitions below; `float()` is
  modelled on finite decimal literals (the special tokens `inf`/`nan` and
  digit underscores are outside the fragment exercised by the claims).
* `list.sort(key=..., reverse=True)` is a stable sort; stable sorting is
  extensionally unique, so it is embedded as the stable insertion sort
  `sortDesc`.
* The filesystem effects of `main` are modelled by an explicit state `FS`
  (directory listing, file contents, set of existing report paths); gzip and
  plain files both deliver their decoded lines, so a file is just its list
  of lines.
-/

/-- Python exception classes that the analyzed code can raise.  `corrupt` is
the bare `raise Exception` at the error-rate gate of `analyze`. -/
inductive PyError where
  | typeError
  | valueError
  | attributeError
  | fileNotFound
  | zeroDivision
  | statisticsError
  | keyError
  | corrupt
  deriving DecidableEq, Repr

/-- Calendar date as produced by `datetime.strptime(s, "%Y%m%d")`. -/
structure Date where
  year : Nat
  month : Nat
  day : Nat
  deriving DecidableEq, Repr

/-- Comparison of `datetime` objects restricted to dates: lexicographic on
(year, month, day), as in `latest.date < date`. -/
def Date.ltb (a b : Date) : Bool :=
  decide (a.year < b.year ∨ (a.year = b.year ∧
    (a.month < b.month ∨ (a.month = b.month ∧ a.day < b.day))))

/-- The `LogInfo` namedtuple: selected log path and its embedded date
(`None` when the filename date does not parse). -/
structure LogInfo where
  path : String
  date : Option Date
  deriving DecidableEq, Repr

/-- Character classes appearing in the source regexes: `.` (any character
except newline), `\d` and `\w` (on the ASCII inputs the code consumes). -/
inductive CClass where
  | dot
  | digit
  | word
  deriving DecidableEq, Repr

def CClass.test : CClass → Char → Bool
  | .dot, c => decide (c ≠ '\n')
  | .digit, c => c.isDigit
  | .word, c => c.isAlphanum || decide (c = '_')

/-- Regular-expression syntax used by the three patterns of the source:
literals, character classes, sequencing, alternation, lazy star over a
class (`.*?`), greedy star over a class (`.*`, `\w*`), greedy plus
(`\d+`), greedy option (`?`), lookahead (`(?= )`), named groups and the
end anchor `$`. -/
inductive Re where
  | eps
  | lit (c : Char)
  | cls (c : CClass)
  | seq (a b : Re)
  | alt (a b : Re)
  | starL (c : CClass)
  | starG (c : CClass)
  | plusG (c : CClass)
  | optG (r : Re)
  | look (r : Re)
  | grp (n : String) (r : Re)
  | eol
  deriving Repr

/-- Work list items for the matcher: a regex still to match, or the closing
bracket of an open capture group. -/
inductive Inst where
  | re (r : Re)
  | close

/-- Backtracking matcher for the embedded regexes, in continuation-list
style.  The first argument is fuel; every recursive call either shortens
the remaining input or strictly shrinks the work list, so a fuel of
`(input length + 1) * (pattern size + 1)` strictly dominates the recursion
depth and the `0`-fuel branch is unreachable for the fuel supplied by
`reMatch`.  On success it returns the association list of named captures. -/
def mrun : Nat → List Inst → List Char → List (String × List Char) →
    List (String × String) → Option (List (String × String))
  | 0, _, _, _, _ => none
  | _ + 1, [], _, _, caps => some caps
  | fuel + 1, .close :: rest, s, stack, caps =>
    match stack with
    | [] => none
    | (n, start) :: stk =>
      mrun fuel rest s stk
        ((n, String.mk (start.take (start.length - s.length))) :: caps)
  | fuel + 1, .re .eps :: rest, s, stack, caps => mrun fuel rest s stack caps
  | fuel + 1, .re (.lit c) :: rest, s, stack, caps =>
    match s with
    | [] => none
    | x :: xs => if x = c then mrun fuel rest xs stack caps else none
  | fuel + 1, .re (.cls cc) :: rest, s, stack, caps =>
    match s with
    | [] => none
    | x :: xs => if cc.test x then mrun fuel rest xs stack caps else none
  | fuel + 1, .re (.seq a b) :: rest, s, stack, caps =>
    mrun fuel (.re a :: .re b :: rest) s stack caps
  | fuel + 1, .re (.alt a b) :: rest, s, stack, caps =>
    (mrun fuel (.re a :: rest) s stack caps) <|>
      (mrun fuel (.re b :: rest) s stack caps)
  | fuel + 1, .re (.starL cc) :: rest, s, stack, caps =>
    (mrun fuel rest s stack caps) <|>
      (match s with
       | [] => none
       | x :: xs =>
         if cc.test x then mrun fuel (.re (.starL cc) :: rest) xs stack caps
         else none)
  | fuel + 1, .re (.starG cc) :: rest, s, stack, caps =>
    (match s with
     | [] => none
     | x :: xs =>
       if cc.test x then mrun fuel (.re (.starG cc) :: rest) xs stack caps
       else none) <|>
      (mrun fuel rest s stack caps)
  | fuel + 1, .re (.plusG cc) :: rest, s, stack, caps =>
    match s with
    | [] => none
    | x :: xs =>
      if cc.test x then mrun fuel (.re (.starG cc) :: rest) xs stack caps
      else none
  | fuel + 1, .re (.optG r) :: rest, s, stack, caps =>
    (mrun fuel (.re r :: rest) s stack caps) <|> (mrun fuel rest s stack caps)
  | fuel + 1, .re (.look r) :: rest, s, stack, caps =>
    match mrun fuel [.re r] s [] [] with
    | some _ => mrun fuel rest s stack caps
    | none => none
  | fuel + 1, .re (.grp n r) :: rest, s, stack, caps =>
    mrun fuel (.re r :: .close :: rest) s ((n, s) :: stack) caps
  | fuel + 1, .re .eol :: rest, s, stack, caps =>
    match s with
    | [] => mrun fuel rest s stack caps
    | ['\n'] => mrun fuel rest s stack caps
    | _ => none

/-- Anchored-at-the-start matching, the semantics of `re.match` (and of
`re.search` for the filename pattern, whose alternatives both carry `^`).
The fuel comfortably dominates the depth bound of `mrun` for the patterns
below, all of which have size well under 400. -/
def reMatch (r : Re) (s : String) : Option (List (String × String)) :=
  mrun ((s.length + 1) * 400 + 400) [Inst.re r] s.data [] []

/-- Sequencing of a list of regexes. -/
def rcat (rs : List Re) : Re := rs.foldr Re.seq Re.eps

/-- A string of literal characters. -/
def rlit (s : String) : Re := rcat (s.data.map Re.lit)

/-- The `NGINX_PATTERN` of the source, transcribed group by group. -/
def NGINX_PATTERN : Re := rcat [
  Re.grp ("remote_addr") (Re.starL .dot), Re.lit ' ',
  Re.grp ("remote_user") (Re.starL .dot), Re.lit ' ',
  Re.grp ("real_ip") (Re.starL .dot), Re.lit ' ', Re.lit '[',
  Re.grp ("date") (Re.starL .dot), Re.look (Re.lit ' '), Re.lit ' ',
  Re.grp ("timezone") (Re.starL .dot), Re.lit ']', Re.lit ' ',
  Re.lit '"', Re.grp ("request_method") (Re.starL .dot), Re.lit ' ',
  Re.grp ("url") (Re.starL .dot),
  Re.optG (Re.grp ("request_version")
    (rcat [Re.lit ' ', rlit ("HTTP/"), Re.starG .dot])),
  Re.lit '"', Re.lit ' ',
  Re.grp ("status") (Re.starL .dot), Re.lit ' ',
  Re.grp ("length") (Re.starL .dot), Re.lit ' ',
  Re.lit '"', Re.grp ("referrer") (Re.starL .dot), Re.lit '"', Re.lit ' ',
  Re.lit '"', Re.grp ("user_agent") (Re.starL .dot), Re.lit '"', Re.lit ' ',
  Re.lit '"', Re.grp ("forwarded_for") (Re.starL .dot), Re.lit '"', Re.lit ' ',
  Re.lit '"', Re.grp ("request_id") (Re.starL .dot), Re.lit '"', Re.lit ' ',
  Re.lit '"', Re.grp ("rb_user") (Re.starL .dot), Re.lit '"', Re.lit ' ',
  Re.grp ("request_time") (Re.starL .dot), Re.eol ]

/-- The filename pattern of `get_latest_logfile`:
`(^nginx-access-ui.log-.*.gz$)|(^nginx-access-ui.log-\d+$)`.  The two dots
of `ui.log` and `.*.gz` that are regex metacharacters are transcribed as
such (`Re.cls .dot`); the unnamed capture parentheses do not influence
acceptance and are dropped. -/
def LOGNAME_PATTERN : Re :=
  Re.alt
    (rcat [rlit ("nginx-access-ui"), Re.cls .dot, rlit ("log-"),
      Re.starG .dot, Re.cls .dot, Re.lit 'g', Re.lit 'z', Re.eol])
    (rcat [rlit ("nginx-access-ui"), Re.cls .dot, rlit ("log-"),
      Re.plusG .digit, Re.eol])

/-- The directory-entry filter of `get_latest_logfile`
(`re.search(pattern, file)` where every alternative of the pattern is
anchored with `^`, so it is equivalent to anchored matching). -/
def matchesLogPattern (name : String) : Bool :=
  (reMatch LOGNAME_PATTERN name).isSome

/-- The date-extraction pattern of `log_date`: `^.*-(\d+)\.?\w*$`. -/
def LOGDATE_PATTERN : Re := rcat [
  Re.starG .dot, Re.lit '-', Re.grp ("1") (Re.plusG .digit),
  Re.optG (Re.lit '.'), Re.starG .word, Re.eol ]

def digitVal (c : Char) : Nat := c.toNat - 48

/-- Month component of `_strptime` for `%m`: the ordered alternation
`1[0-2]|0[1-9]|[1-9]`, returning the value and the remaining input. -/
def parseMonth : List Char → Option (Nat × List Char)
  | c1 :: c2 :: r =>
    if c1 = '1' ∧ '0' ≤ c2 ∧ c2 ≤ '2' then some (10 + digitVal c2, r)
    else if c1 = '0' ∧ '1' ≤ c2 ∧ c2 ≤ '9' then some (digitVal c2, r)
    else if '1' ≤ c1 ∧ c1 ≤ '9' then some (digitVal c1, c2 :: r)
    else none
  | [c1] => if '1' ≤ c1 ∧ c1 ≤ '9' then some (digitVal c1, []) else none
  | [] => none

/-- Day component of `_strptime` for `%d`: the ordered alternation
`3[01]|[12]\d|0[1-9]|[1-9]`. -/
def parseDay : List Char → Option (Nat × List Char)
  | c1 :: c2 :: r =>
    if c1 = '3' ∧ (c2 = '0' ∨ c2 = '1') then some (30 + digitVal c2, r)
    else if (c1 = '1' ∨ c1 = '2') ∧ c2.isDigit then
      some (digitVal c1 * 10 + digitVal c2, r)
    else if c1 = '0' ∧ '1' ≤ c2 ∧ c2 ≤ '9' then some (digitVal c2, r)
    else if '1' ≤ c1 ∧ c1 ≤ '9' then some (digitVal c1, c2 :: r)
    else none
  | [c1] => if '1' ≤ c1 ∧ c1 ≤ '9' then some (digitVal c1, []) else none
  | [] => none

def isLeap (y : Nat) : Bool :=
  decide (y % 4 = 0) && (decide (y % 100 ≠ 0) || decide (y % 400 = 0))

def daysInMonth (y m : Nat) : Nat :=
  if m = 2 then (if isLeap y then 29 else 28)
  else if m = 4 ∨ m = 6 ∨ m = 9 ∨ m = 11 then 30
  else 31

/-- Model of `datetime.strptime(s, "%Y%m%d")`: four digits for `%Y`, the
`%m` and `%d` alternations, no unconverted trailing data, and the
`datetime` constructor's validity check (year at least `MINYEAR = 1`, day
within the month).  `none` models the raised `ValueError`. -/
def parseYmd (s : String) : Option Date :=
  match s.data with
  | y1 :: y2 :: y3 :: y4 :: rest =>
    if y1.isDigit ∧ y2.isDigit ∧ y3.isDigit ∧ y4.isDigit then
      let y := ((digitVal y1 * 10 + digitVal y2) * 10 + digitVal y3) * 10 +
        digitVal y4
      match parseMonth rest with
      | some (m, rest2) =>
        match parseDay rest2 with
        | some (d, rest3) =>
          if rest3 = [] ∧ 1 ≤ y ∧ d ≤ daysInMonth y m then some ⟨y, m, d⟩
          else none
        | none => none
      | none => none
    else none
  | _ => none

/-- The `log_date` function: match `^.*-(\d+)\.?\w*$` against the filename
and feed group 1 to `strptime`; any failure yields `None`. -/
def log_date (log_file : String) : Option Date :=
  match reMatch LOGDATE_PATTERN log_file with
  | none => none
  | some caps =>
    match caps.lookup ("1") with
    | some ds => parseYmd ds
    | none => none

/-- Model of `os.path.join` for the shapes used here. -/
def osPathJoin (a b : String) : String :=
  if b.startsWith ("/") then b
  else if a = "" then b
  else if a.endsWith ("/") then a ++ b
  else a ++ ("/") ++ b

/-- One iteration of the selection loop of `get_latest_logfile`.  The
`latest and date` test compares `latest.date < date` with `<` on
`datetime`; when `latest.date` is `None` and `date` is a `datetime`, that
comparison raises `TypeError`, which the embedding surfaces as
`.error .typeError`. -/
def selStep (log_dir : String) (latest : Option LogInfo) (log : String) :
    Except PyError (Option LogInfo) :=
  let date := log_date log
  let latest1 : Option LogInfo :=
    match latest with
    | none => some ⟨osPathJoin log_dir log, date⟩
    | some l => some l
  match latest1, date with
  | some l, some d =>
    match l.date with
    | none => .error .typeError
    | some ld =>
      if ld.ltb d then .ok (some ⟨osPathJoin log_dir log, some d⟩)
      else .ok latest1
  | _, _ => .ok latest1

/-- The `get_latest_logfile` function: filter the directory listing by the
filename pattern and run the selection loop. -/
def get_latest_logfile (log_dir : String) (listing : List String) :
    Except PyError (Option LogInfo) :=
  (listing.filter matchesLogPattern).foldlM (selStep log_dir) none

/-- The `parse_line` function: `re.match(NGINX_PATTERN, line)`, returning
the group dictionary on a match and `None` otherwise. -/
def parse_line (line : String) : Option (List (String × String)) :=
  reMatch NGINX_PATTERN line

/-- Model of Python `float(s)` on finite decimal literals: optional
whitespace, optional sign, digits with an optional fractional part (at
least one digit overall), and an optional exponent.  `none` models the
raised `ValueError`; in particular `float("-")` and `float("abc")` raise.
The special tokens `inf`/`nan` and digit-group underscores are outside the
fragment exercised by the code paths verified here. -/
def pyFloat (s : String) : Option ℚ :=
  let cs := s.trim.data
  let (sign, cs) : ℚ × List Char :=
    match cs with
    | '-' :: r => (-1, r)
    | '+' :: r => (1, r)
    | r => (1, r)
  let ipart := cs.takeWhile Char.isDigit
  let cs := cs.dropWhile Char.isDigit
  let (fpart, cs) : List Char × List Char :=
    match cs with
    | '.' :: r => (r.takeWhile Char.isDigit, r.dropWhile Char.isDigit)
    | r => ([], r)
  if ipart.isEmpty ∧ fpart.isEmpty then none
  else
    let mant : ℚ := ((ipart ++ fpart).foldl
      (fun acc c => acc * 10 + digitVal c) 0 : Nat)
    let mant := sign * mant / ((10 : ℚ) ^ fpart.length)
    match cs with
    | [] => some mant
    | 'e' :: r => pyFloatExp mant r
    | 'E' :: r => pyFloatExp mant r
    | _ => none
where
  /-- Exponent part `[+-]?digits` of a decimal literal. -/
  pyFloatExp (mant : ℚ) (cs : List Char) : Option ℚ :=
    let (esign, cs) : Bool × List Char :=
      match cs with
      | '-' :: r => (true, r)
      | '+' :: r => (false, r)
      | r => (false, r)
    if cs.isEmpty ∨ ¬ cs.all Char.isDigit then none
    else
      let e : Nat := cs.foldl (fun acc c => acc * 10 + digitVal c) 0
      some (if esign then mant / ((10 : ℚ) ^ e) else mant * ((10 : ℚ) ^ e))

/-- The running state of the scan loop in `analyze`: `total_count`,
`errors_count`, `total_time` and the `logs_statistics` defaultdict, the
latter as an association list in first-insertion order (Python dicts
preserve insertion order). -/
structure ScanState where
  total : Nat
  errors : Nat
  totalTime : ℚ
  stats : List (String × List ℚ)
  deriving DecidableEq, Repr

/-- Append a sample to a URL's list, creating the entry at the end on first
sight, exactly as `logs_statistics[url].append(request_time)` does on a
defaultdict. -/
def addSample : List (String × List ℚ) → String → ℚ → List (String × List ℚ)
  | [], u, t => [(u, [t])]
  | (v, ts) :: rest, u, t =>
    if v = u then (v, ts ++ [t]) :: rest else (v, ts) :: addSample rest u t

/-- One iteration of the scan loop of `analyze`: count the line, then
either count a parse failure or convert the duration with `float` (whose
`ValueError` on a non-numeric token propagates) and record the sample.
The `keyError` branch is unreachable: a match of `NGINX_PATTERN` always
captures both `request_time` and `url`. -/
def scanLine (st : ScanState) (line : String) : Except PyError ScanState :=
  let st := { st with total := st.total + 1 }
  match parse_line line with
  | none => .ok { st with errors := st.errors + 1 }
  | some caps =>
    match caps.lookup ("request_time"), caps.lookup ("url") with
    | some rt, some u =>
      match pyFloat rt with
      | some t =>
        .ok { st with
              totalTime := st.totalTime + t
              stats := addSample st.stats u t }
      | none => .error .valueError
    | _, _ => .error .keyError

/-- The scan loop of `analyze` over the decoded lines of the file. -/
def scanLines (lines : List String) : Except PyError ScanState :=
  lines.foldlM scanLine ⟨0, 0, 0, []⟩

/-- The constant `MAX_ERRORS_LIMIT = 0.2`, modelled exactly. -/
def MAX_ERRORS_LIMIT : ℚ := 1 / 5

/-- Sum of a list of samples, as Python `sum` (left fold from `0`). -/
def sumQ (l : List ℚ) : ℚ := l.foldl (· + ·) 0

/-- Value of Python `max` on a nonempty list (the `[]` case is governed by
`pyMax`, which raises). -/
def listMax : List ℚ → ℚ
  | [] => 0
  | x :: xs => xs.foldl max x

/-- Python `max(times)`: `ValueError` on an empty sequence. -/
def pyMax (l : List ℚ) : Except PyError ℚ :=
  match l with
  | [] => .error .valueError
  | x :: xs => .ok (xs.foldl max x)

/-- Python true division: `ZeroDivisionError` on a zero denominator (also
for floats, as in `0.0 / 0.0`). -/
def pyDiv (a b : ℚ) : Except PyError ℚ :=
  if b = 0 then .error .zeroDivision else .ok (a / b)

/-- Stable insertion sort ascending by value, used by the median model
(`statistics.median` sorts its input). -/
def insAsc (x : ℚ) : List ℚ → List ℚ
  | [] => [x]
  | y :: ys => if x ≤ y then x :: y :: ys else y :: insAsc x ys

def sortAsc : List ℚ → List ℚ
  | [] => []
  | x :: xs => insAsc x (sortAsc xs)

/-- Value of `statistics.median` on a nonempty list: the middle element of
the sorted data for odd length, the mean of the two middle elements for
even length. -/
def medianOf (l : List ℚ) : ℚ :=
  let s := sortAsc l
  if l.length % 2 = 1 then s.getD (l.length / 2) 0
  else (s.getD (l.length / 2 - 1) 0 + s.getD (l.length / 2) 0) / 2

/-- `statistics.median`, which raises `StatisticsError` on empty input. -/
def pyMedian (l : List ℚ) : Except PyError ℚ :=
  if l.isEmpty then .error .statisticsError else .ok (medianOf l)

/-- Round half to even to the nearest integer, the semantics of Python
`round` idealized to exact arithmetic. -/
def halfEven (q : ℚ) : ℤ :=
  let f : ℤ := ⌊q⌋
  let r : ℚ := q - f
  if r < 1 / 2 then f
  else if 1 / 2 < r then f + 1
  else if f % 2 = 0 then f else f + 1

/-- Python `round(x, 3)` idealized to exact arithmetic. -/
def pyRound3 (q : ℚ) : ℚ := (halfEven (q * 1000) : ℚ) / 1000

/-- One row of the report. -/
structure ReportRecord where
  url : String
  count : Nat
  count_perc : ℚ
  time_sum : ℚ
  time_max : ℚ
  time_perc : ℚ
  time_avg : ℚ
  time_med : ℚ
  deriving DecidableEq, Repr

/-- The loop body of `prepare_report_data` for one URL, with the fallible
subexpressions evaluated in the order of the Python dict literal:
`count_perc` (division by `one_c_percent`), `time_sum`, `time_max`
(`max` on a possibly empty list), `time_perc` (division by
`one_t_percent`), `time_avg` (division by `count`), `time_med`
(`statistics.median`).  Note that `time_max` is taken from `max(times)`
without rounding, unlike the other derived fields. -/
def buildRecord (total_count : Nat) (total_time : ℚ) (url : String)
    (times : List ℚ) : Except PyError ReportRecord := do
  let one_c : ℚ := (total_count : ℚ) / 100
  let one_t : ℚ := total_time / 100
  let count := times.length
  let time_sum := sumQ times
  let count_perc ← pyDiv (count : ℚ) one_c
  let time_max ← pyMax times
  let time_perc ← pyDiv time_sum one_t
  let time_avg ← pyDiv time_sum (count : ℚ)
  let time_med ← pyMedian times
  .ok { url := url, count := count,
        count_perc := pyRound3 count_perc,
        time_sum := pyRound3 time_sum,
        time_max := time_max,
        time_perc := pyRound3 time_perc,
        time_avg := pyRound3 time_avg,
        time_med := pyRound3 time_med }

/-- Build the rows in iteration order, propagating the first raised
exception, as the `for url, times in logs_statistics.items()` loop does. -/
def mapExcept (f : α → Except PyError β) : List α → Except PyError (List β)
  | [] => .ok []
  | x :: xs => do
    let y ← f x
    let ys ← mapExcept f xs
    .ok (y :: ys)

/-- Stable insertion (descending by `time_perc`): an element is placed
before the first element whose key is less than or equal to its own, so
earlier elements stay ahead of later ones with an equal key. -/
def insDesc (x : ReportRecord) : List ReportRecord → List ReportRecord
  | [] => [x]
  | y :: ys =>
    if y.time_perc ≤ x.time_perc then x :: y :: ys else y :: insDesc x ys

/-- Stable sort descending by `time_perc`.  Python's
`report_data.sort(key=lambda x: x["time_perc"], reverse=True)` is a stable
sort, and a stable sort for a fixed total preorder is extensionally
unique, so this insertion sort computes exactly its result. -/
def sortDesc : List ReportRecord → List ReportRecord
  | [] => []
  | x :: xs => insDesc x (sortDesc xs)

/-- The `prepare_report_data` function: build one row per URL in insertion
order, sort stably by descending `time_perc`, and truncate to
`report_size` rows. -/
def prepare_report_data (stats : List (String × List ℚ)) (total_count : Nat)
    (total_time : ℚ) (report_size : Nat) :
    Except PyError (List ReportRecord) := do
  let recs ← mapExcept
    (fun p => buildRecord total_count total_time p.1 p.2) stats
  .ok ((sortDesc recs).take report_size)

/-- The `analyze` function on the decoded lines of the selected file: scan
every line, apply the error-rate gate
`errors_count >= MAX_ERRORS_LIMIT * total_count` (a bare `Exception` when
it holds), then build the report data. -/
def analyze (lines : List String) (report_size : Nat) :
    Except PyError (List ReportRecord) := do
  let st ← scanLines lines
  if MAX_ERRORS_LIMIT * (st.total : ℚ) ≤ (st.errors : ℚ) then
    .error .corrupt
  else
    prepare_report_data st.stats st.total st.totalTime report_size

/-- Zero-padded decimal rendering for `strftime` fields. -/
def padNum (width n : Nat) : String :=
  let s := toString n
  if s.length < width then
    String.mk (List.replicate (width - s.length) '0') ++ s
  else s

/-- Model of `log.date.strftime('%Y-%m-%d')`. -/
def strftimeYmd (d : Date) : String :=
  padNum 4 d.year ++ ("-") ++ padNum 2 d.month ++ ("-") ++ padNum 2 d.day

/-- The `get_report_path` function.  `log.date.strftime(...)` on a `None`
date raises `AttributeError` (`NoneType` has no `strftime`). -/
def get_report_path (log : LogInfo) (report_dir : String) :
    Except PyError String :=
  match log.date with
  | none => .error .attributeError
  | some d =>
    .ok (osPathJoin report_dir (("report-") ++ strftimeYmd d ++ (".html")))

/-- The filesystem state visible to `main`: the log directory listing, the
decoded line contents of the log files, and the set of paths for which
`os.path.exists` is true at the report destination. -/
structure FS where
  logListing : List String
  fileLines : List (String × List String)
  reportFiles : List String
  deriving DecidableEq, Repr

/-- The `is_report_already_exists` function (`os.path.exists` on the
report path). -/
def is_report_already_exists (fs : FS) (path : String) : Bool :=
  fs.reportFiles.contains path

/-- Terminal outcome of one run of `main`. -/
inductive Outcome where
  | skipped
  | reported (path : String) (data : List ReportRecord)
  | noData
  deriving DecidableEq, Repr

/-- The resolved configuration consumed by `main`. -/
structure Config where
  reportSize : Nat
  reportDir : String
  logDir : String

/-- Reading the decoded lines of a file (`gzip.open`/`open` followed by
line iteration); a missing file raises `FileNotFoundError`. -/
def readFileLines (fs : FS) (path : String) : Except PyError (List String) :=
  match fs.fileLines.lookup path with
  | some ls => .ok ls
  | none => .error .fileNotFound

/-- The `main` function as a transition on the filesystem state: locate
the latest log, derive the report path, short-circuit when the report
already exists, otherwise scan, analyze and (when there is data) render
the report, which makes the report path exist.  `start_logging` and
`create_report_dir` have no effect on the modelled state.  An uncaught
exception (the `__main__` wrapper then exits with code 1) is an
`Except.error`. -/
def runMain (cfg : Config) (fs : FS) : Except PyError (FS × Outcome) := do
  let logfile? ← get_latest_logfile cfg.logDir fs.logListing
  match logfile? with
  | none => .error .fileNotFound
  | some logfile => do
    let report_path ← get_report_path logfile cfg.reportDir
    if is_report_already_exists fs report_path then
      .ok (fs, .skipped)
    else do
      let lines ← readFileLines fs logfile.path
      let data ← analyze lines cfg.reportSize
      if data ≠ [] then
        .ok ({ fs with reportFiles := report_path :: fs.reportFiles },
          .reported report_path data)
      else
        .ok (fs, .noData)

/-- Modelled from the spec: the input-file naming convention that the
claims state the locator enforces, a name consisting of a prefix ending in
`.log-` followed by exactly an eight-digit date, either with no further
suffix or with a `.gz` suffix.  This definition follows the spec's words
and exists to be compared with the code's `matchesLogPattern`. -/
def specCandidate (name : String) : Bool :=
  let core := if name.endsWith (".gz") then name.dropRight 3 else name
  let ds := core.takeRight 8
  let pre := core.dropRight 8
  decide (ds.length = 8) && ds.data.all Char.isDigit &&
    pre.endsWith (".log-")

/-- Total number of samples across all URLs of the statistics mapping. -/
def statsCount (stats : List (String × List ℚ)) : Nat :=
  (stats.map (fun p => p.2.length)).sum

/-- Total time across all URLs of the statistics mapping. -/
def statsTime (stats : List (String × List ℚ)) : ℚ :=
  (stats.map (fun p => sumQ p.2)).sum

/-- Decidable equality for `Except`, needed to evaluate the embedded
functions on concrete inputs inside proofs. -/
instance {ε α : Type _} [DecidableEq ε] [DecidableEq α] :
    DecidableEq (Except ε α) :=
  fun a b =>
    match a, b with
    | .error e₁, .error e₂ =>
      if h : e₁ = e₂ then .isTrue (by rw [h])
      else .isFalse (fun hc => h (by cases hc; rfl))
    | .ok v₁, .ok v₂ =>
      if h : v₁ = v₂ then .isTrue (by rw [h])
      else .isFalse (fun hc => h (by cases hc; rfl))
    | .error _, .ok _ => .isFalse (fun hc => Except.noConfusion hc)
    | .ok _, .error _ => .isFalse (fun hc => Except.noConfusion hc)

/-- The invariant of the scan state: every URL in the mapping has at least
one sample, the error count plus the number of samples equals the number
of observed lines, and the samples sum to the accumulated total time. -/
def scanInv (st : ScanState) : Prop :=
  (∀ p ∈ st.stats, p.2 ≠ []) ∧
    st.errors + statsCount st.stats = st.total ∧
    statsTime st.stats = st.totalTime

/-! Helper lemmas about the scan -/

theorem exbind_ok {α β : Type _} (a : α) (f : α → Except PyError β) :
    (Except.ok a >>= f) = f a := rfl

theorem exbind_err {α β : Type _} (e : PyError) (f : α → Except PyError β) :
    ((Except.error e : Except PyError α) >>= f) = Except.error e := rfl

/-- Behaviour of one scan step on a line that the pattern does not match:
the line is counted and the error counter is incremented, nothing else
changes. -/
theorem scanLine_parse_none (st : ScanState) (line : String)
    (h : parse_line line = none) :
    scanLine st line =
      .ok { st with
            total := st.total + 1
            errors := st.errors + 1 } := by
  simp [scanLine, h]

/-- Behaviour of one scan step on a matched line whose duration converts:
the line is counted, the duration is added to the total time and the
sample is appended to its URL. -/
theorem scanLine_parse_some (st : ScanState) (line : String)
    (caps : List (String × String)) (rt u : String) (t : ℚ)
    (hp : parse_line line = some caps)
    (hrt : caps.lookup ("request_time") = some rt)
    (hu : caps.lookup ("url") = some u)
    (hf : pyFloat rt = some t) :
    scanLine st line =
      .ok { st with
            total := st.total + 1
            totalTime := st.totalTime + t
            stats := addSample st.stats u t } := by
  simp [scanLine, hp, hrt, hu, hf]

/-- Behaviour of one scan step on a matched line whose duration does not
convert with `float`: the `ValueError` propagates out of the scan. -/
theorem scanLine_parse_badfloat (st : ScanState) (line : String)
    (caps : List (String × String)) (rt u : String)
    (hp : parse_line line = some caps)
    (hrt : caps.lookup ("request_time") = some rt)
    (hu : caps.lookup ("url") = some u)
    (hf : pyFloat rt = none) :
    scanLine st line = .error .valueError := by
  simp [scanLine, hp, hrt, hu, hf]

theorem sumQ_append_one (l : List ℚ) (t : ℚ) :
    sumQ (l ++ [t]) = sumQ l + t := by
  simp [sumQ, List.foldl_append]

theorem statsCount_addSample (stats : List (String × List ℚ)) (u : String)
    (t : ℚ) : statsCount (addSample stats u t) = statsCount stats + 1 := by
  induction stats with
  | nil => simp [addSample, statsCount]
  | cons p rest ih =>
    obtain ⟨v, ts⟩ := p
    by_cases h : v = u
    · simp only [addSample, if_pos h, statsCount, List.map_cons, List.sum_cons,
        List.length_append, List.length_singleton]
      omega
    · simp only [addSample, if_neg h, statsCount, List.map_cons,
        List.sum_cons] at ih ⊢
      omega

theorem statsTime_addSample (stats : List (String × List ℚ)) (u : String)
    (t : ℚ) : statsTime (addSample stats u t) = statsTime stats + t := by
  induction stats with
  | nil => simp [addSample, statsTime, sumQ]
  | cons p rest ih =>
    obtain ⟨v, ts⟩ := p
    by_cases h : v = u
    · simp only [addSample, if_pos h, statsTime, List.map_cons, List.sum_cons,
        sumQ_append_one]
      ring
    · simp only [addSample, if_neg h, statsTime, List.map_cons,
        List.sum_cons] at ih ⊢
      rw [ih]
      ring

theorem addSample_ne_nil (stats : List (String × List ℚ)) (u : String) (t : ℚ)
    (h : ∀ p ∈ stats, p.2 ≠ []) : ∀ p ∈ addSample stats u t, p.2 ≠ [] := by
  induction stats with
  | nil =>
    intro p hp
    simp only [addSample, List.mem_singleton] at hp
    simp [hp]
  | cons q rest ih =>
    intro p hp
    obtain ⟨v, ts⟩ := q
    by_cases hv : v = u
    · simp only [addSample, if_pos hv, List.mem_cons] at hp
      rcases hp with hp | hp
      · have hts : ts ≠ [] := h (v, ts) (List.mem_cons_self _ _)
        subst hp
        simp
      · exact h p (List.mem_cons_of_mem _ hp)
    · simp only [addSample, if_neg hv, List.mem_cons] at hp
      rcases hp with hp | hp
      · subst hp
        exact h (v, ts) (List.mem_cons_self _ _)
      · exact ih (fun q hq => h q (List.mem_cons_of_mem _ hq)) p hp

theorem scanLine_inv (st st' : ScanState) (line : String)
    (hinv : scanInv st) (h : scanLine st line = .ok st') : scanInv st' := by
  obtain ⟨h1, h2, h3⟩ := hinv
  cases hp : parse_line line with
  | none =>
    rw [scanLine_parse_none st line hp] at h
    obtain rfl := Except.ok.inj h
    exact ⟨h1, by simpa using by omega, h3⟩
  | some caps =>
    cases hrt : caps.lookup ("request_time") with
    | none => simp [scanLine, hp, hrt] at h
    | some rt =>
      cases hu : caps.lookup ("url") with
      | none => simp [scanLine, hp, hrt, hu] at h
      | some u =>
        cases hf : pyFloat rt with
        | none =>
          rw [scanLine_parse_badfloat st line caps rt u hp hrt hu hf] at h
          exact absurd h (by simp)
        | some t =>
          rw [scanLine_parse_some st line caps rt u t hp hrt hu hf] at h
          obtain rfl := Except.ok.inj h
          refine ⟨addSample_ne_nil _ _ _ h1, ?_, ?_⟩
          · simp only [statsCount_addSample]
            omega
          · simp only [statsTime_addSample]
            rw [h3]

theorem scan_fold_inv (lines : List String) :
    ∀ st0 st : ScanState, scanInv st0 →
      List.foldlM scanLine st0 lines = .ok st → scanInv st := by
  induction lines with
  | nil =>
    intro st0 st h0 h
    simp only [List.foldlM_nil] at h
    exact Except.ok.inj h ▸ h0
  | cons l rest ih =>
    intro st0 st h0 h
    rw [List.foldlM_cons] at h
    cases hs : scanLine st0 l with
    | error e =>
      rw [hs, exbind_err] at h
      exact absurd h (by simp)
    | ok st1 =>
      rw [hs, exbind_ok] at h
      exact ih st1 st (scanLine_inv st0 st1 l h0 hs) h

/-- After any completed scan the invariant holds. -/
theorem scanLines_inv (lines : List String) (st : ScanState)
    (h : scanLines lines = .ok st) : scanInv st :=
  scan_fold_inv lines ⟨0, 0, 0, []⟩ st
    (by refine ⟨?_, ?_, ?_⟩
        · intro p hp
          simp at hp
        · simp [statsCount]
        · simp [statsTime]) h

/-! Helper lemmas about the report builder and the gate -/

theorem exbind_ne_corrupt {α β : Type _} {m : Except PyError α}
    {f : α → Except PyError β} (hm : m ≠ .error .corrupt)
    (hf : ∀ a, f a ≠ .error .corrupt) : (m >>= f) ≠ .error .corrupt := by
  cases m with
  | error e =>
    rw [exbind_err]
    intro hcon
    exact hm (by injection hcon with he; rw [he])
  | ok a => rw [exbind_ok]; exact hf a

theorem pyDiv_ne_corrupt (a b : ℚ) : pyDiv a b ≠ .error .corrupt := by
  unfold pyDiv
  split <;> simp

theorem pyMax_ne_corrupt (l : List ℚ) : pyMax l ≠ .error .corrupt := by
  cases l <;> simp [pyMax]

theorem pyMedian_ne_corrupt (l : List ℚ) : pyMedian l ≠ .error .corrupt := by
  unfold pyMedian
  split <;> simp

/-- The per-URL record builder can raise `ZeroDivisionError`, `ValueError`
or `StatisticsError`, but never the gate's bare `Exception`. -/
theorem buildRecord_ne_corrupt (tc : Nat) (tt : ℚ) (u : String)
    (ts : List ℚ) : buildRecord tc tt u ts ≠ .error .corrupt := by
  unfold buildRecord
  refine exbind_ne_corrupt (pyDiv_ne_corrupt _ _) fun cp => ?_
  refine exbind_ne_corrupt (pyMax_ne_corrupt _) fun tm => ?_
  refine exbind_ne_corrupt (pyDiv_ne_corrupt _ _) fun tp => ?_
  refine exbind_ne_corrupt (pyDiv_ne_corrupt _ _) fun ta => ?_
  refine exbind_ne_corrupt (pyMedian_ne_corrupt _) fun tm2 => ?_
  simp

theorem mapExcept_ne_corrupt {α β : Type _} (f : α → Except PyError β)
    (l : List α) (hf : ∀ a ∈ l, f a ≠ .error .corrupt) :
    mapExcept f l ≠ .error .corrupt := by
  induction l with
  | nil => simp [mapExcept]
  | cons x xs ih =>
    unfold mapExcept
    refine exbind_ne_corrupt (hf x (List.mem_cons_self _ _)) fun y => ?_
    refine exbind_ne_corrupt
      (ih fun a ha => hf a (List.mem_cons_of_mem _ ha)) fun ys => ?_
    simp

theorem mapExcept_length {α β : Type _} (f : α → Except PyError β) :
    ∀ (l : List α) (res : List β), mapExcept f l = .ok res →
      res.length = l.length := by
  intro l
  induction l with
  | nil =>
    intro res h
    simp only [mapExcept, Except.ok.injEq] at h
    simp [← h]
  | cons x xs ih =>
    intro res h
    unfold mapExcept at h
    cases hx : f x with
    | error e => rw [hx, exbind_err] at h; exact absurd h (by simp)
    | ok y =>
      rw [hx, exbind_ok] at h
      cases hxs : mapExcept f xs with
      | error e => rw [hxs, exbind_err] at h; exact absurd h (by simp)
      | ok ys =>
        rw [hxs, exbind_ok] at h
        obtain rfl := Except.ok.inj h
        simp [ih ys hxs]

theorem mapExcept_ok_of_forall {α β : Type _} (f : α → Except PyError β) :
    ∀ l : List α, (∀ a ∈ l, ∃ b, f a = .ok b) →
      ∃ res, mapExcept f l = .ok res := by
  intro l
  induction l with
  | nil => exact fun _ => ⟨[], rfl⟩
  | cons x xs ih =>
    intro h
    obtain ⟨y, hy⟩ := h x (List.mem_cons_self _ _)
    obtain ⟨ys, hys⟩ := ih fun a ha => h a (List.mem_cons_of_mem _ ha)
    refine ⟨y :: ys, ?_⟩
    unfold mapExcept
    rw [hy, exbind_ok, hys, exbind_ok]

/-- Evaluation of the per-URL record builder under the preconditions of
the claims: a nonempty sample list and nonzero totals.  The divisions are
rewritten to the shapes the spec uses; note the unrounded `time_max`. -/
theorem buildRecord_ok (total_count : Nat) (total_time : ℚ) (url : String)
    (times : List ℚ) (hne : times ≠ []) (hc : total_count ≠ 0)
    (ht : total_time ≠ 0) :
    buildRecord total_count total_time url times = .ok
      { url := url, count := times.length,
        count_perc := pyRound3 ((times.length : ℚ) / ((total_count : ℚ) / 100)),
        time_sum := pyRound3 (sumQ times),
        time_max := listMax times,
        time_perc := pyRound3 (sumQ times / (total_time / 100)),
        time_avg := pyRound3 (sumQ times / (times.length : ℚ)),
        time_med := pyRound3 (medianOf times) } := by
  obtain ⟨x, xs, rfl⟩ := List.exists_cons_of_ne_nil hne
  have h1 : ((total_count : ℚ) / 100) ≠ 0 := by
    rw [div_ne_zero_iff]
    exact ⟨Nat.cast_ne_zero.mpr hc, by norm_num⟩
  have h2 : total_time / 100 ≠ 0 := by
    rw [div_ne_zero_iff]
    exact ⟨ht, by norm_num⟩
  simp [buildRecord, pyDiv, pyMax, pyMedian, h1, h2, listMax, exbind_ok]
  rw [if_neg (show ¬((xs.length : ℚ) + 1 = 0) by positivity)]
  simp [exbind_ok]

theorem prepare_eq (stats : List (String × List ℚ)) (tc : Nat) (tt : ℚ)
    (rs : Nat) (recs : List ReportRecord)
    (h : mapExcept (fun p => buildRecord tc tt p.1 p.2) stats = .ok recs) :
    prepare_report_data stats tc tt rs = .ok ((sortDesc recs).take rs) := by
  unfold prepare_report_data
  rw [h, exbind_ok]

theorem prepare_ne_corrupt (stats : List (String × List ℚ)) (tc : Nat)
    (tt : ℚ) (rs : Nat) :
    prepare_report_data stats tc tt rs ≠ .error .corrupt := by
  unfold prepare_report_data
  refine exbind_ne_corrupt
    (mapExcept_ne_corrupt _ _ fun a _ => buildRecord_ne_corrupt _ _ _ _)
    fun recs => ?_
  simp

theorem analyze_eq (lines : List String) (rs : Nat) (st : ScanState)
    (h : scanLines lines = .ok st) :
    analyze lines rs =
      if MAX_ERRORS_LIMIT * (st.total : ℚ) ≤ (st.errors : ℚ) then
        .error .corrupt
      else prepare_report_data st.stats st.total st.totalTime rs := by
  unfold analyze
  rw [h, exbind_ok]

/-! Helper lemmas about the ranking sort -/

theorem insDesc_length (x : ReportRecord) (l : List ReportRecord) :
    (insDesc x l).length = l.length + 1 := by
  induction l with
  | nil => simp [insDesc]
  | cons y ys ih =>
    by_cases h : y.time_perc ≤ x.time_perc
    · simp [insDesc, h]
    · simp [insDesc, h, ih]

theorem sortDesc_length (l : List ReportRecord) :
    (sortDesc l).length = l.length := by
  induction l with
  | nil => rfl
  | cons x xs ih => simp [sortDesc, insDesc_length, ih]

theorem insDesc_mem (a x : ReportRecord) (l : List ReportRecord) :
    a ∈ insDesc x l ↔ a = x ∨ a ∈ l := by
  induction l with
  | nil => simp [insDesc]
  | cons y ys ih =>
    by_cases h : y.time_perc ≤ x.time_perc
    · simp [insDesc, h]
    · simp only [insDesc, if_neg h, List.mem_cons, ih]
      tauto

theorem insDesc_pairwise (x : ReportRecord) (l : List ReportRecord)
    (h : List.Pairwise (fun a b => b.time_perc ≤ a.time_perc) l) :
    List.Pairwise (fun a b => b.time_perc ≤ a.time_perc) (insDesc x l) := by
  induction l with
  | nil => simp [insDesc]
  | cons y ys ih =>
    obtain ⟨hy, hys⟩ := List.pairwise_cons.mp h
    by_cases hc : y.time_perc ≤ x.time_perc
    · simp only [insDesc, if_pos hc]
      refine List.pairwise_cons.mpr ⟨?_, h⟩
      intro b hb
      rcases List.mem_cons.mp hb with hb | hb
      · rw [hb]; exact hc
      · exact le_trans (hy b hb) hc
    · simp only [insDesc, if_neg hc]
      refine List.pairwise_cons.mpr ⟨?_, ih hys⟩
      intro b hb
      rcases (insDesc_mem b x ys).mp hb with hb | hb
      · rw [hb]; exact le_of_lt (not_le.mp hc)
      · exact hy b hb

/-- The output of the stable descending sort is sorted by weakly
decreasing `time_perc`. -/
theorem sortDesc_pairwise (l : List ReportRecord) :
    List.Pairwise (fun a b => b.time_perc ≤ a.time_perc) (sortDesc l) := by
  induction l with
  | nil => simp [sortDesc]
  | cons x xs ih => exact insDesc_pairwise x (sortDesc xs) ih

theorem insDesc_filter (t : ℚ) (x : ReportRecord) (l : List ReportRecord) :
    (insDesc x l).filter (fun r => decide (r.time_perc = t)) =
      if x.time_perc = t then
        x :: l.filter (fun r => decide (r.time_perc = t))
      else l.filter (fun r => decide (r.time_perc = t)) := by
  induction l with
  | nil =>
    by_cases hx : x.time_perc = t <;> simp [insDesc, List.filter, hx]
  | cons y ys ih =>
    simp only [insDesc]
    by_cases hc : y.time_perc ≤ x.time_perc
    · rw [if_pos hc]
      by_cases hx : x.time_perc = t <;> by_cases hy : y.time_perc = t <;>
        simp [List.filter_cons, hx, hy]
    · rw [if_neg hc]
      have hlt : x.time_perc < y.time_perc := not_le.mp hc
      by_cases hx : x.time_perc = t
      · have hy : ¬ y.time_perc = t := by
          rw [← hx]
          exact (ne_of_gt hlt)
        simp [List.filter_cons, hx, hy, ih]
      · by_cases hy : y.time_perc = t <;>
          simp [List.filter_cons, hx, hy, ih]

/-- Stability of the descending sort: for every key value, the sorted list
restricted to that key is exactly the input restricted to that key, in the
original order. -/
theorem sortDesc_filter (t : ℚ) (l : List ReportRecord) :
    (sortDesc l).filter (fun r => decide (r.time_perc = t)) =
      l.filter (fun r => decide (r.time_perc = t)) := by
  induction l with
  | nil => rfl
  | cons x xs ih =>
    by_cases hx : x.time_perc = t <;>
      simp [sortDesc, insDesc_filter, hx, List.filter_cons, ih]

/-! Helper lemmas about the log locator -/

theorem Date.ltb_irrefl (d : Date) : Date.ltb d d = false := by
  simp [Date.ltb]

theorem selStep_start (dir n : String) :
    selStep dir none n = .ok (some ⟨osPathJoin dir n, log_date n⟩) := by
  cases hn : log_date n with
  | none => simp [selStep, hn]
  | some dn => simp [selStep, hn, Date.ltb_irrefl]

theorem selStep_skip_undated (dir : String) (li : LogInfo) (n : String)
    (hn : log_date n = none) : selStep dir (some li) n = .ok (some li) := by
  cases hd : li.date with
  | none => simp [selStep, hn]
  | some d => simp [selStep, hn]

theorem selStep_crash (dir : String) (li : LogInfo) (n : String) (dn : Date)
    (hli : li.date = none) (hn : log_date n = some dn) :
    selStep dir (some li) n = .error .typeError := by
  simp [selStep, hn, hli]

theorem selStep_dated_lt (dir : String) (li : LogInfo) (n : String)
    (d dn : Date) (hli : li.date = some d) (hn : log_date n = some dn)
    (h : Date.ltb d dn = true) :
    selStep dir (some li) n = .ok (some ⟨osPathJoin dir n, some dn⟩) := by
  simp [selStep, hn, hli, h]

theorem selStep_dated_ge (dir : String) (li : LogInfo) (n : String)
    (d dn : Date) (hli : li.date = some d) (hn : log_date n = some dn)
    (h : Date.ltb d dn = false) :
    selStep dir (some li) n = .ok (some li) := by
  simp [selStep, hn, hli, h]

theorem sel_fold_undated (dir : String) :
    ∀ (names : List String) (li : LogInfo), li.date = none →
      (∀ n ∈ names, log_date n = none) →
      List.foldlM (selStep dir) (some li) names = .ok (some li) := by
  intro names
  induction names with
  | nil => intro li _ _; rfl
  | cons n rest ih =>
    intro li hli hall
    rw [List.foldlM_cons,
      selStep_skip_undated dir li n (hall n (List.mem_cons_self _ _)),
      exbind_ok]
    exact ih li hli fun m hm => hall m (List.mem_cons_of_mem _ hm)

theorem sel_fold_crash (dir : String) :
    ∀ (names : List String) (li : LogInfo), li.date = none →
      (∃ n ∈ names, (log_date n).isSome = true) →
      List.foldlM (selStep dir) (some li) names = .error .typeError := by
  intro names
  induction names with
  | nil => intro li _ hex; simp at hex
  | cons n rest ih =>
    intro li hli hex
    cases hn : log_date n with
    | some dn =>
      rw [List.foldlM_cons, selStep_crash dir li n dn hli hn, exbind_err]
    | none =>
      rw [List.foldlM_cons, selStep_skip_undated dir li n hn, exbind_ok]
      obtain ⟨m, hm, hsome⟩ := hex
      rcases List.mem_cons.mp hm with rfl | hm
      · rw [hn] at hsome; simp at hsome
      · exact ih li hli ⟨m, hm, hsome⟩

theorem Date.ltb_false_of (a b c : Date) (h1 : Date.ltb a b = false)
    (h2 : Date.ltb b c = false) : Date.ltb a c = false := by
  obtain ⟨ay, am, ad⟩ := a
  obtain ⟨by_, bm, bd⟩ := b
  obtain ⟨cy, cm, cd⟩ := c
  simp only [Date.ltb, decide_eq_false_iff_not] at h1 h2 ⊢
  omega

theorem Date.ltb_false_of_lt (a b c : Date) (h1 : Date.ltb a b = true)
    (h2 : Date.ltb c b = false) : Date.ltb c a = false := by
  obtain ⟨ay, am, ad⟩ := a
  obtain ⟨by_, bm, bd⟩ := b
  obtain ⟨cy, cm, cd⟩ := c
  simp only [Date.ltb, decide_eq_true_eq, decide_eq_false_iff_not] at h1 h2 ⊢
  omega

/-- The selection loop starting from a dated state never faults and ends
in a dated state whose date is maximal among the start date and all dated
candidates, and which is either the start state or one of the candidates
with that maximal date. -/
theorem sel_fold_dated (dir : String) :
    ∀ (names : List String) (li : LogInfo) (d : Date), li.date = some d →
      ∃ li' d', List.foldlM (selStep dir) (some li) names = .ok (some li') ∧
        li'.date = some d' ∧
        (li' = li ∨ ∃ n ∈ names, log_date n = some d' ∧
          li'.path = osPathJoin dir n) ∧
        Date.ltb d' d = false ∧
        (∀ n ∈ names, ∀ dn, log_date n = some dn →
          Date.ltb d' dn = false) := by
  intro names
  induction names with
  | nil =>
    intro li d hli
    refine ⟨li, d, rfl, hli, Or.inl rfl, Date.ltb_irrefl d, ?_⟩
    intro n hn
    simp at hn
  | cons n rest ih =>
    intro li d hli
    cases hn : log_date n with
    | none =>
      rw [List.foldlM_cons, selStep_skip_undated dir li n hn, exbind_ok]
      obtain ⟨li', d', hfold, hdate, hatt, hge, hall⟩ := ih li d hli
      refine ⟨li', d', hfold, hdate, ?_, hge, ?_⟩
      · rcases hatt with h | ⟨m, hm, hmd, hmp⟩
        · exact Or.inl h
        · exact Or.inr ⟨m, List.mem_cons_of_mem _ hm, hmd, hmp⟩
      · intro m hm dm hdm
        rcases List.mem_cons.mp hm with rfl | hm
        · rw [hn] at hdm; exact absurd hdm (by simp)
        · exact hall m hm dm hdm
    | some dn =>
      cases hlt : Date.ltb d dn with
      | true =>
        rw [List.foldlM_cons, selStep_dated_lt dir li n d dn hli hn hlt,
          exbind_ok]
        obtain ⟨li', d', hfold, hdate, hatt, hge, hall⟩ :=
          ih ⟨osPathJoin dir n, some dn⟩ dn rfl
        refine ⟨li', d', hfold, hdate, ?_, ?_, ?_⟩
        · rcases hatt with h | ⟨m, hm, hmd, hmp⟩
          · refine Or.inr ⟨n, List.mem_cons_self _ _, ?_, ?_⟩
            · rw [hn, ← hdate, h]
            · rw [h]
          · exact Or.inr ⟨m, List.mem_cons_of_mem _ hm, hmd, hmp⟩
        · exact Date.ltb_false_of_lt d dn d' hlt hge
        · intro m hm dm hdm
          rcases List.mem_cons.mp hm with rfl | hm
          · rw [hn] at hdm
            obtain rfl := Option.some.inj hdm
            exact hge
          · exact hall m hm dm hdm
      | false =>
        rw [List.foldlM_cons, selStep_dated_ge dir li n d dn hli hn hlt,
          exbind_ok]
        obtain ⟨li', d', hfold, hdate, hatt, hge, hall⟩ := ih li d hli
        refine ⟨li', d', hfold, hdate, ?_, hge, ?_⟩
        · rcases hatt with h | ⟨m, hm, hmd, hmp⟩
          · exact Or.inl h
          · exact Or.inr ⟨m, List.mem_cons_of_mem _ hm, hmd, hmp⟩
        · intro m hm dm hdm
          rcases List.mem_cons.mp hm with rfl | hm
          · rw [hn] at hdm
            obtain rfl := Option.some.inj hdm
            exact Date.ltb_false_of d' d _ hge hlt
          · exact hall m hm dm hdm

/-! Helper lemmas about the orchestrator -/

theorem runMain_eq_located (cfg : Config) (fs : FS) (li : LogInfo)
    (hg : get_latest_logfile cfg.logDir fs.logListing = .ok (some li)) :
    runMain cfg fs = (do
      let report_path ← get_report_path li cfg.reportDir
      if is_report_already_exists fs report_path then
        Except.ok (fs, Outcome.skipped)
      else do
        let lines ← readFileLines fs li.path
        let data ← analyze lines cfg.reportSize
        if data ≠ [] then
          Except.ok ({ fs with reportFiles := report_path :: fs.reportFiles },
            Outcome.reported report_path data)
        else Except.ok (fs, Outcome.noData)) := by
  unfold runMain
  rw [hg, exbind_ok]

theorem runMain_eq_nolog (cfg : Config) (fs : FS)
    (hg : get_latest_logfile cfg.logDir fs.logListing = .ok none) :
    runMain cfg fs = .error .fileNotFound := by
  unfold runMain
  rw [hg, exbind_ok]

/-! Claims: one theorem per claim of the specification check, with
witnesses and counterexamples. -/

/-- Claim C10: deriving the report path requires a parsed embedded date.
For every run whose selected log has `LogInfo.date = None`, the pipeline
faults with the `AttributeError` raised inside `get_report_path` — before
the existing-report check and before any line is scanned — and so the run
terminates with failure and never writes a report. -/
theorem claim_C10 (cfg : Config) (fs : FS) (li : LogInfo)
    (hg : get_latest_logfile cfg.logDir fs.logListing = .ok (some li))
    (hdate : li.date = none) :
    runMain cfg fs = .error .attributeError := by
  rw [runMain_eq_located cfg fs li hg]
  rw [show get_report_path li cfg.reportDir = .error .attributeError from by
    simp [get_report_path, hdate]]
  rw [exbind_err]

/-- Witness for C10: a directory whose only candidate log has a filename
date that does not parse, so the selected `LogInfo` carries no date. -/
theorem claim_C10_witness :
    runMain ⟨1000, "rep10", "log10"⟩
      ⟨["nginx-access-ui.log-abc.gz"], [], []⟩ = .error .attributeError :=
  claim_C10 ⟨1000, "rep10", "log10"⟩ ⟨["nginx-access-ui.log-abc.gz"], [], []⟩
    ⟨"log10/nginx-access-ui.log-abc.gz", none⟩
    (by with_unfolding_all decide) rfl

/-- Claim C7: when the report file derived from the selected log's date
already exists at the destination, the run skips the entire scan and ends
successfully with the state unchanged; consequently a run that reports is
followed, on the state it produced, by a skipping no-op run. -/
theorem claim_C7 :
    (∀ (cfg : Config) (fs : FS) (li : LogInfo) (p : String),
      get_latest_logfile cfg.logDir fs.logListing = .ok (some li) →
      get_report_path li cfg.reportDir = .ok p →
      is_report_already_exists fs p = true →
      runMain cfg fs = .ok (fs, .skipped)) ∧
    (∀ (cfg : Config) (fs fs' : FS) (p : String) (data : List ReportRecord),
      runMain cfg fs = .ok (fs', .reported p data) →
      runMain cfg fs' = .ok (fs', .skipped)) := by
  have hskip : ∀ (cfg : Config) (fs : FS) (li : LogInfo) (p : String),
      get_latest_logfile cfg.logDir fs.logListing = .ok (some li) →
      get_report_path li cfg.reportDir = .ok p →
      is_report_already_exists fs p = true →
      runMain cfg fs = .ok (fs, .skipped) := by
    intro cfg fs li p hg hp hex
    rw [runMain_eq_located cfg fs li hg, hp, exbind_ok]
    simp [hex]
  refine ⟨hskip, ?_⟩
  intro cfg fs fs' p data h
  cases hg : get_latest_logfile cfg.logDir fs.logListing with
  | error e =>
    rw [show runMain cfg fs = .error e from by
      unfold runMain; rw [hg, exbind_err]] at h
    exact absurd h (by simp)
  | ok lf? =>
    cases lf? with
    | none =>
      rw [runMain_eq_nolog cfg fs hg] at h
      exact absurd h (by simp)
    | some li =>
      rw [runMain_eq_located cfg fs li hg] at h
      cases hp : get_report_path li cfg.reportDir with
      | error e => rw [hp, exbind_err] at h; exact absurd h (by simp)
      | ok p0 =>
        rw [hp, exbind_ok] at h
        cases hex : is_report_already_exists fs p0 with
        | true =>
          rw [if_pos hex] at h
          exact absurd h (by simp)
        | false =>
          rw [if_neg (by simp [hex])] at h
          cases hl : readFileLines fs li.path with
          | error e => rw [hl, exbind_err] at h; exact absurd h (by simp)
          | ok lines =>
            rw [hl, exbind_ok] at h
            cases ha : analyze lines cfg.reportSize with
            | error e => rw [ha, exbind_err] at h; exact absurd h (by simp)
            | ok data0 =>
              rw [ha, exbind_ok] at h
              by_cases hd : data0 = []
              · rw [if_neg (by simp [hd])] at h
                exact absurd h (by simp)
              · rw [if_pos hd] at h
                have h' := Except.ok.inj h
                injection h' with hfs hout
                injection hout with hp2 hd2
                subst hp2
                subst hd2
                subst hfs
                refine hskip cfg _ li p0 ?_ hp ?_
                · exact hg
                · simp [is_report_already_exists]

/-- Witness for C7: a concrete run that writes its report, after which the
same configuration on the resulting state skips. -/
theorem claim_C7_witness :
    runMain ⟨1000, "rep7", "log7"⟩
      ⟨["nginx-access-ui.log-20180730"],
        [(("log7/nginx-access-ui.log-20180730"),
          ["a b c [d +0300] \"GET /x HTTP/1.1\" 200 10 \"-\" \"ua\" \"-\" \"rid\" \"-\" 1.5\n"])],
        ["rep7/report-2018-07-30.html"]⟩ =
      .ok (⟨["nginx-access-ui.log-20180730"],
        [(("log7/nginx-access-ui.log-20180730"),
          ["a b c [d +0300] \"GET /x HTTP/1.1\" 200 10 \"-\" \"ua\" \"-\" \"rid\" \"-\" 1.5\n"])],
        ["rep7/report-2018-07-30.html"]⟩, .skipped) :=
  claim_C7.2 ⟨1000, "rep7", "log7"⟩
    ⟨["nginx-access-ui.log-20180730"],
      [(("log7/nginx-access-ui.log-20180730"),
        ["a b c [d +0300] \"GET /x HTTP/1.1\" 200 10 \"-\" \"ua\" \"-\" \"rid\" \"-\" 1.5\n"])],
      []⟩
    ⟨["nginx-access-ui.log-20180730"],
      [(("log7/nginx-access-ui.log-20180730"),
        ["a b c [d +0300] \"GET /x HTTP/1.1\" 200 10 \"-\" \"ua\" \"-\" \"rid\" \"-\" 1.5\n"])],
      ["rep7/report-2018-07-30.html"]⟩
    ("rep7/report-2018-07-30.html")
    [{ url := "/x", count := 1, count_perc := 100, time_sum := 3/2,
       time_max := 3/2, time_perc := 100, time_avg := 3/2, time_med := 3/2 }]
    (by with_unfolding_all decide)

/-- Claim C2 counterexample: a zero-line input is not a benign "nothing to
report" outcome; `0 >= 0.2 * 0` holds, so `analyze` raises the gate's
"log unreadable" exception. -/
theorem claim_C2_counterexample : analyze [] 1000 = .error .corrupt := by
  with_unfolding_all decide

/-- Claim C2 as amended: when the scan observes zero lines the gate
comparison `errors_count >= MAX_ERRORS_LIMIT * total_count` is `0 >= 0`
and holds, so the run fails with the gate's "log unreadable" exception and
writes no report; there is no division fault (the gate multiplies rather
than divides). -/
theorem claim_C2 :
    (∀ rs : Nat, analyze [] rs = .error .corrupt) ∧
    (∀ (cfg : Config) (fs : FS) (li : LogInfo) (p : String),
      get_latest_logfile cfg.logDir fs.logListing = .ok (some li) →
      get_report_path li cfg.reportDir = .ok p →
      is_report_already_exists fs p = false →
      readFileLines fs li.path = .ok [] →
      runMain cfg fs = .error .corrupt) := by
  have hempty : ∀ rs : Nat, analyze [] rs = .error .corrupt := by
    intro rs
    have hscan : scanLines ([] : List String) = .ok ⟨0, 0, 0, []⟩ := rfl
    rw [analyze_eq [] rs ⟨0, 0, 0, []⟩ hscan]
    rw [if_pos (by norm_num [MAX_ERRORS_LIMIT])]
  refine ⟨hempty, ?_⟩
  intro cfg fs li p hg hp hex hrd
  rw [runMain_eq_located cfg fs li hg, hp, exbind_ok]
  rw [if_neg (by simp [hex])]
  rw [hrd, exbind_ok, hempty cfg.reportSize, exbind_err]

/-- Witness for C2: a concrete run over an empty (zero-byte) log file,
which fails with the gate error instead of ending benignly. -/
theorem claim_C2_witness :
    runMain ⟨1000, "rep2", "log2"⟩
      ⟨["nginx-access-ui.log-20180707"],
        [(("log2/nginx-access-ui.log-20180707"), [])], []⟩ =
      .error .corrupt :=
  claim_C2.2 ⟨1000, "rep2", "log2"⟩
    ⟨["nginx-access-ui.log-20180707"],
      [(("log2/nginx-access-ui.log-20180707"), [])], []⟩
    ⟨"log2/nginx-access-ui.log-20180707", some ⟨2018, 7, 7⟩⟩
    ("rep2/report-2018-07-07.html")
    (by with_unfolding_all decide) (by with_unfolding_all decide) rfl rfl

/-- Claim C3 counterexample: a line that matches the full schema but whose
trailing duration field is `-` is not a "no match": `parse_line` returns a
match, and the `float` conversion inside the scan faults with
`ValueError` instead of the line being counted as an error. -/
theorem claim_C3_counterexample :
    (parse_line ("a b c [d +0300] \"GET /x HTTP/1.1\" 200 10 \"-\" \"ua\" \"-\" \"rid\" \"-\" -\n")).isSome = true ∧
    analyze ["a b c [d +0300] \"GET /x HTTP/1.1\" 200 10 \"-\" \"ua\" \"-\" \"rid\" \"-\" -\n"] 1000 =
      .error .valueError := by
  exact ⟨by decide, by with_unfolding_all decide⟩

/-- Claim C3 as amended: `parse_line` is total and returns `none` on any
line deviating from the schema (including the empty line), and the scan
counts every such line as an error without faulting; but a line matching
the schema whose duration token `float` rejects (such as `-` or a
non-numeric token) is returned as a match and the numeric-conversion
fault propagates into the scan. -/
theorem claim_C3 :
    (∀ (st : ScanState) (line : String), parse_line line = none →
      scanLine st line =
        .ok { st with total := st.total + 1, errors := st.errors + 1 }) ∧
    parse_line ("") = none ∧
    (∀ (st : ScanState) (line : String) (caps : List (String × String))
      (rt u : String), parse_line line = some caps →
      caps.lookup ("request_time") = some rt →
      caps.lookup ("url") = some u → pyFloat rt = none →
      scanLine st line = .error .valueError) :=
  ⟨fun st line h => scanLine_parse_none st line h,
    by decide,
    fun st line caps rt u hp hrt hu hf =>
      scanLine_parse_badfloat st line caps rt u hp hrt hu hf⟩

/-- Witness for C3: the empty line is counted as an error; a concrete
schema-matching line with a non-numeric duration faults. -/
theorem claim_C3_witness :
    scanLine ⟨0, 0, 0, []⟩ ("") =
      .ok { total := 1, errors := 1, totalTime := 0, stats := [] } ∧
    scanLine ⟨5, 2, 10, []⟩
      ("a b c [d +0300] \"GET /y HTTP/1.1\" 200 10 \"-\" \"ua\" \"-\" \"rid\" \"-\" xyz\n") =
      .error .valueError := by
  refine ⟨claim_C3.1 ⟨0, 0, 0, []⟩ ("") claim_C3.2.1, ?_⟩
  exact claim_C3.2.2 ⟨5, 2, 10, []⟩ _
    [(("request_time"), ("xyz")), (("rb_user"), ("-")), (("request_id"), ("rid")),
      (("forwarded_for"), ("-")), (("user_agent"), ("ua")), (("referrer"), ("-")),
      (("length"), ("10")), (("status"), ("200")),
      (("request_version"), (" HTTP/1.1")), (("url"), ("/y")),
      (("request_method"), ("GET")), (("timezone"), ("+0300")), (("date"), ("d")),
      (("real_ip"), ("c")), (("remote_user"), ("b")), (("remote_addr"), ("a"))]
    ("xyz") ("/y") (by decide) (by decide) (by decide)
    (by with_unfolding_all decide)

/-- Claim C8 counterexample: a line that is not successfully parsed into a
pair (its duration `abc` has no float value) does not increment
`totalErrors`: the scan aborts with the conversion fault, so no final
state with `totalLines = 1, totalErrors = 1` exists. -/
theorem claim_C8_counterexample :
    scanLines ["q r s [t +0100] \"GET /z HTTP/1.1\" 200 7 \"-\" \"ua\" \"-\" \"rid\" \"-\" abc\n"] =
      .error .valueError ∧
    scanLines ["q r s [t +0100] \"GET /z HTTP/1.1\" 200 7 \"-\" \"ua\" \"-\" \"rid\" \"-\" abc\n"] ≠
      .ok ⟨1, 1, 0, []⟩ := by
  exact ⟨by with_unfolding_all decide, by with_unfolding_all decide⟩

/-- Claim C8 as amended: restricted to scans in which every matched
line's duration converts (so the scan completes), each observed line
increments `totalLines` exactly once; a matched line additionally adds
its `requestTime` to `totalTime` and appends the sample to its URL entry
(creating it on first sight); an unmatched line additionally increments
`totalErrors` and changes nothing else; and after any completed scan
every URL in the mapping has at least one sample, the per-URL sample
counts sum to `totalLines - totalErrors`, and the samples across all
URLs sum to `totalTime`. -/
theorem claim_C8 :
    (∀ (st : ScanState) (line : String) (caps : List (String × String))
      (rt u : String) (t : ℚ), parse_line line = some caps →
      caps.lookup ("request_time") = some rt →
      caps.lookup ("url") = some u → pyFloat rt = some t →
      scanLine st line =
        .ok { st with
              total := st.total + 1
              totalTime := st.totalTime + t
              stats := addSample st.stats u t }) ∧
    (∀ (st : ScanState) (line : String), parse_line line = none →
      scanLine st line =
        .ok { st with total := st.total + 1, errors := st.errors + 1 }) ∧
    (∀ (lines : List String) (st : ScanState), scanLines lines = .ok st →
      (∀ p ∈ st.stats, p.2 ≠ []) ∧
      st.errors + statsCount st.stats = st.total ∧
      statsTime st.stats = st.totalTime) :=
  ⟨fun st line caps rt u t hp hrt hu hf =>
      scanLine_parse_some st line caps rt u t hp hrt hu hf,
    fun st line h => scanLine_parse_none st line h,
    fun lines st h => scanLines_inv lines st h⟩

/-- Witness for C8: a two-line scan (one parsed, one malformed) reaching
the state predicted by the per-line accounting, with the invariants
evaluated on it. -/
theorem claim_C8_witness :
    scanLines
      ["a b c [d +0300] \"GET /w HTTP/1.1\" 200 10 \"-\" \"ua\" \"-\" \"rid\" \"-\" 0.25\n",
        "bogus"] = .ok ⟨2, 1, 1 / 4, [(("/w"), [1 / 4])]⟩ ∧
    ((∀ p ∈ [(("/w"), [(1 / 4 : ℚ)])], p.2 ≠ []) ∧
      1 + statsCount [(("/w"), [(1 / 4 : ℚ)])] = 2 ∧
      statsTime [(("/w"), [(1 / 4 : ℚ)])] = 1 / 4) := by
  have hscan : scanLines
      ["a b c [d +0300] \"GET /w HTTP/1.1\" 200 10 \"-\" \"ua\" \"-\" \"rid\" \"-\" 0.25\n",
        "bogus"] = .ok ⟨2, 1, 1 / 4, [(("/w"), [1 / 4])]⟩ := by
    with_unfolding_all decide
  exact ⟨hscan, claim_C8.2.2 _ _ hscan⟩

/-- Claim C1 counterexample: a fully scanned log with `totalLines > 0`
and malformed fraction `0 < 0.2` that does not succeed: when every parsed
duration is `0.000`, the total time is zero and the report builder
divides by `one_t_percent = 0`, so the run fails with
`ZeroDivisionError` instead of producing a report. -/
theorem claim_C1_counterexample :
    analyze ["a b c [d +0300] \"GET /x HTTP/1.1\" 200 10 \"-\" \"ua\" \"-\" \"rid\" \"-\" 0.000\n"] 1000 =
      .error .zeroDivision := by
  with_unfolding_all decide

/-- Claim C1 as amended: for every fully scanned log (no conversion
fault) with `totalLines > 0`, the run fails with the gate's "log
unreadable" error iff `totalErrors / totalLines >= 0.2`; and when the
fraction is strictly below `0.2` the run succeeds with a nonempty report,
provided additionally that the accumulated `totalTime` is positive and
the configured report size is at least 1. -/
theorem claim_C1 (lines : List String) (rs : Nat) (st : ScanState)
    (hscan : scanLines lines = .ok st) (hpos : 0 < st.total) :
    ((analyze lines rs = .error .corrupt) ↔
      (1 / 5 : ℚ) ≤ (st.errors : ℚ) / (st.total : ℚ)) ∧
    ((st.errors : ℚ) / (st.total : ℚ) < 1 / 5 → 0 < st.totalTime →
      1 ≤ rs → ∃ data, analyze lines rs = .ok data ∧ data ≠ []) := by
  have htot : (0 : ℚ) < (st.total : ℚ) := by exact_mod_cast hpos
  have hgate_iff : (MAX_ERRORS_LIMIT * (st.total : ℚ) ≤ (st.errors : ℚ)) ↔
      (1 / 5 : ℚ) ≤ (st.errors : ℚ) / (st.total : ℚ) := by
    rw [le_div_iff₀ htot]
    simp [MAX_ERRORS_LIMIT]
  constructor
  · constructor
    · intro h
      by_contra hlt
      rw [analyze_eq lines rs st hscan] at h
      rw [if_neg (fun hc => hlt (hgate_iff.mp hc))] at h
      exact prepare_ne_corrupt _ _ _ _ h
    · intro h
      rw [analyze_eq lines rs st hscan, if_pos (hgate_iff.mpr h)]
  · intro hlt htime hrs
    obtain ⟨h1, h2, h3⟩ := scanLines_inv lines st hscan
    have hng : ¬ (MAX_ERRORS_LIMIT * (st.total : ℚ) ≤ (st.errors : ℚ)) :=
      fun hc => absurd (hgate_iff.mp hc) (not_le.mpr hlt)
    have hstats : st.stats ≠ [] := by
      intro hnil
      rw [hnil] at h2
      simp [statsCount] at h2
      apply hng
      rw [h2]
      unfold MAX_ERRORS_LIMIT
      linarith
    have htc : st.total ≠ 0 := Nat.pos_iff_ne_zero.mp hpos
    have htt : st.totalTime ≠ 0 := ne_of_gt htime
    obtain ⟨recs, hmap⟩ := mapExcept_ok_of_forall
      (fun p => buildRecord st.total st.totalTime p.1 p.2) st.stats
      (fun p hp =>
        ⟨_, buildRecord_ok st.total st.totalTime p.1 p.2 (h1 p hp) htc htt⟩)
    have hlen := mapExcept_length _ _ _ hmap
    refine ⟨(sortDesc recs).take rs, ?_, ?_⟩
    · rw [analyze_eq lines rs st hscan, if_neg hng]
      exact prepare_eq st.stats st.total st.totalTime rs recs hmap
    · have hlenpos : ((sortDesc recs).take rs).length ≠ 0 := by
        rw [List.length_take, sortDesc_length, hlen]
        have hsl : st.stats.length ≠ 0 :=
          fun hz => hstats (List.length_eq_zero.mp hz)
        omega
      intro hnil
      rw [hnil] at hlenpos
      simp at hlenpos

/-- Witness for C1: a one-line log with a positive duration, zero errors
and report size 1000 produces a nonempty report. -/
theorem claim_C1_witness :
    ∃ data,
      analyze ["a b c [d +0300] \"GET /x HTTP/1.1\" 200 10 \"-\" \"ua\" \"-\" \"rid\" \"-\" 1.5\n"] 1000 =
        .ok data ∧ data ≠ [] := by
  have h := claim_C1
    ["a b c [d +0300] \"GET /x HTTP/1.1\" 200 10 \"-\" \"ua\" \"-\" \"rid\" \"-\" 1.5\n"]
    1000 ⟨1, 0, 3 / 2, [(("/x"), [3 / 2])]⟩
    (by with_unfolding_all decide) (by decide)
  exact h.2 (by norm_num) (by norm_num) (by norm_num)

/-- Claim C4 counterexample: in a directory whose first matching candidate
has an unparsable embedded date (month 99) while a later candidate has a
valid date, the selection loop evaluates `None < datetime` and faults
with `TypeError` instead of preferring the dated candidate. -/
theorem claim_C4_counterexample :
    get_latest_logfile ("log4") ["nginx-access-ui.log-20189999.gz",
      "nginx-access-ui.log-20180730.gz"] = .error .typeError := by
  decide

/-- Claim C4 as amended: with zero matching files the locator yields the
explicit no-log outcome `none`; when the first matching candidate is
dated, the locator returns a dated candidate whose date is maximal among
all dated candidates (so an undated candidate never outranks a dated
one); when the first matching candidate is undated and all others are
undated too, the first is returned deterministically; but when the first
matching candidate is undated and any later candidate is dated, the
comparison `None < datetime` faults with `TypeError`. -/
theorem claim_C4 (dir : String) (files : List String) :
    (files.filter matchesLogPattern = [] →
      get_latest_logfile dir files = .ok none) ∧
    (∀ c₀ rest, files.filter matchesLogPattern = c₀ :: rest →
      ((log_date c₀ = none ∧ (∀ n ∈ rest, log_date n = none)) →
        get_latest_logfile dir files =
          .ok (some ⟨osPathJoin dir c₀, none⟩)) ∧
      ((log_date c₀ = none ∧ ∃ n ∈ rest, (log_date n).isSome = true) →
        get_latest_logfile dir files = .error .typeError) ∧
      (∀ d₀, log_date c₀ = some d₀ →
        ∃ li d', get_latest_logfile dir files = .ok (some li) ∧
          li.date = some d' ∧
          (∃ n ∈ c₀ :: rest, log_date n = some d' ∧
            li.path = osPathJoin dir n) ∧
          (∀ n ∈ c₀ :: rest, ∀ dn, log_date n = some dn →
            Date.ltb d' dn = false))) := by
  constructor
  · intro hnil
    unfold get_latest_logfile
    rw [hnil]
    rfl
  · intro c₀ rest hc
    have hstep : get_latest_logfile dir files =
        (selStep dir none c₀ >>= fun st => List.foldlM (selStep dir) st rest) := by
      unfold get_latest_logfile
      rw [hc, List.foldlM_cons]
    refine ⟨?_, ?_, ?_⟩
    · rintro ⟨h0, hall⟩
      rw [hstep, selStep_start, exbind_ok, h0]
      exact sel_fold_undated dir rest ⟨osPathJoin dir c₀, none⟩ rfl hall
    · rintro ⟨h0, hex⟩
      rw [hstep, selStep_start, exbind_ok, h0]
      exact sel_fold_crash dir rest ⟨osPathJoin dir c₀, none⟩ rfl hex
    · intro d₀ h0
      obtain ⟨li', d', hfold, hdate, hatt, hge, hall⟩ :=
        sel_fold_dated dir rest ⟨osPathJoin dir c₀, some d₀⟩ d₀ rfl
      refine ⟨li', d', ?_, hdate, ?_, ?_⟩
      · rw [hstep, selStep_start, exbind_ok, h0]
        exact hfold
      · rcases hatt with h | ⟨m, hm, hmd, hmp⟩
        · refine ⟨c₀, List.mem_cons_self _ _, ?_, ?_⟩
          · rw [h0]
            rw [h] at hdate
            simp only at hdate
            rw [hdate]
          · rw [h]
        · exact ⟨m, List.mem_cons_of_mem _ hm, hmd, hmp⟩
      · intro n hn dn hdn
        rcases List.mem_cons.mp hn with rfl | hn
        · rw [h0] at hdn
          obtain rfl := Option.some.inj hdn
          exact hge
        · exact hall n hn dn hdn

/-- Witness for C4: the spec's example pair of filenames, for which the
locator selects the `20180730` file; the instantiated maximality
conclusion together with the concrete selected value. -/
theorem claim_C4_witness :
    (∃ li d', get_latest_logfile ("log4w")
        ["nginx-access-ui.log-20180730.gz", "nginx-access-ui.log-20180101"] =
        .ok (some li) ∧
      li.date = some d' ∧
      (∃ n ∈ ["nginx-access-ui.log-20180730.gz",
          "nginx-access-ui.log-20180101"], log_date n = some d' ∧
        li.path = osPathJoin ("log4w") n) ∧
      (∀ n ∈ ["nginx-access-ui.log-20180730.gz",
          "nginx-access-ui.log-20180101"], ∀ dn, log_date n = some dn →
        Date.ltb d' dn = false)) ∧
    get_latest_logfile ("log4w")
        ["nginx-access-ui.log-20180730.gz", "nginx-access-ui.log-20180101"] =
      .ok (some ⟨"log4w/nginx-access-ui.log-20180730.gz",
        some ⟨2018, 7, 30⟩⟩) :=
  ⟨((claim_C4 ("log4w") ["nginx-access-ui.log-20180730.gz",
      "nginx-access-ui.log-20180101"]).2
      ("nginx-access-ui.log-20180730.gz") ["nginx-access-ui.log-20180101"]
      (by decide)).2.2 ⟨2018, 7, 30⟩ (by decide),
    by with_unfolding_all decide⟩

/-- Claim C9 counterexample: `nginx-access-ui.log-1` is accepted by the
code's directory filter although its date part is a single digit, so
acceptance is not equivalent to the claimed naming convention. -/
theorem claim_C9_counterexample :
    matchesLogPattern ("nginx-access-ui.log-1") = true ∧
    specCandidate ("nginx-access-ui.log-1") = false :=
  ⟨by decide, by with_unfolding_all decide⟩

/-- Claim C9 as amended: the filter is the regex
`(^nginx-access-ui.log-.*.gz$)|(^nginx-access-ui.log-\d+$)` with
unescaped dots.  It accepts the claimed convention's nginx-named forms,
but deviates from the convention in both directions: it also accepts
digit runs of any length and arbitrary text before a trailing `gz`, it
wildcards the dot of `ui.log`, and it rejects names with other prefixes
that the convention's `*.log-YYYYMMDD` shape allows. -/
theorem claim_C9 :
    matchesLogPattern ("nginx-access-ui.log-20180730") = true ∧
    matchesLogPattern ("nginx-access-ui.log-20180730.gz") = true ∧
    specCandidate ("nginx-access-ui.log-20180730") = true ∧
    specCandidate ("nginx-access-ui.log-20180730.gz") = true ∧
    matchesLogPattern ("nginx-access-ui.log-1") = true ∧
    specCandidate ("nginx-access-ui.log-1") = false ∧
    matchesLogPattern ("nginx-access-ui.log-abc.gz") = true ∧
    specCandidate ("nginx-access-ui.log-abc.gz") = false ∧
    matchesLogPattern ("apache.log-20180730") = false ∧
    specCandidate ("apache.log-20180730") = true ∧
    matchesLogPattern ("nginx-access-uiXlog-20180730") = true ∧
    specCandidate ("nginx-access-uiXlog-20180730") = false ∧
    matchesLogPattern ("nginx-access-ui.log-20180730.bz2") = false ∧
    specCandidate ("nginx-access-ui.log-20180730.bz2") = false :=
  ⟨by decide, by decide, by with_unfolding_all decide,
    by with_unfolding_all decide, by decide, by with_unfolding_all decide,
    by decide, by with_unfolding_all decide, by decide,
    by with_unfolding_all decide, by decide, by with_unfolding_all decide,
    by decide, by with_unfolding_all decide⟩

/-- Claim C5 counterexample: the report record's `time_max` is the raw
`max(times)`, not rounded to 3 decimal places: for the sample `0.0625`
the emitted `time_max` is `0.0625`, a value that 3-decimal rounding would
change (to `0.062`). -/
theorem claim_C5_counterexample :
    prepare_report_data [(("u"), [(1 : ℚ) / 16])] 1 ((1 : ℚ) / 16) 10 =
      .ok [{ url := "u", count := 1, count_perc := 100,
             time_sum := 31 / 500, time_max := 1 / 16, time_perc := 100,
             time_avg := 31 / 500, time_med := 31 / 500 }] ∧
    pyRound3 ((1 : ℚ) / 16) ≠ (1 : ℚ) / 16 := by
  exact ⟨by with_unfolding_all decide, by with_unfolding_all decide⟩

/-- Claim C5 as amended: under the claim's premises the record satisfies
`count = len(samples)`, `time_sum = Σ`, `time_avg = time_sum / count`,
`time_med` = statistical median (mean of the two middle values for even
count, middle value for odd), `count_perc = 100 * count / totalLines` and
`time_perc = 100 * time_sum / totalTime`, each of those five derived
fields rounded to 3 decimals — but `time_max = max(samples)` is emitted
unrounded. -/
theorem claim_C5 (total_count : Nat) (total_time : ℚ) (url : String)
    (times : List ℚ) (hne : times ≠ []) (hc : 0 < total_count)
    (ht : 0 < total_time) :
    buildRecord total_count total_time url times = .ok
      { url := url, count := times.length,
        count_perc := pyRound3 (100 * (times.length : ℚ) / (total_count : ℚ)),
        time_sum := pyRound3 (sumQ times),
        time_max := listMax times,
        time_perc := pyRound3 (100 * sumQ times / total_time),
        time_avg := pyRound3 (sumQ times / (times.length : ℚ)),
        time_med := pyRound3 (medianOf times) } ∧
    medianOf [(1 : ℚ), 2, 3] = 2 ∧ medianOf [(1 : ℚ), 2, 3, 4] = 5 / 2 := by
  refine ⟨?_, by with_unfolding_all decide, by with_unfolding_all decide⟩
  rw [buildRecord_ok total_count total_time url times hne
    (Nat.pos_iff_ne_zero.mp hc) (ne_of_gt ht)]
  have e1 : ((times.length : ℚ)) / ((total_count : ℚ) / 100) =
      100 * (times.length : ℚ) / (total_count : ℚ) := by
    rw [div_div_eq_mul_div]
    ring
  have e2 : sumQ times / (total_time / 100) =
      100 * sumQ times / total_time := by
    rw [div_div_eq_mul_div]
    ring
  rw [e1, e2]

/-- Witness for C5 at a concrete record computation. -/
theorem claim_C5_witness :
    buildRecord 4 10 ("u5") [(1 : ℚ), 2] = .ok
      { url := "u5", count := 2, count_perc := 50, time_sum := 3,
        time_max := 2, time_perc := 30, time_avg := 3 / 2,
        time_med := 3 / 2 } := by
  have h := (claim_C5 4 10 ("u5") [(1 : ℚ), 2]
    (by with_unfolding_all decide) (by decide) (by norm_num)).1
  rw [h]
  with_unfolding_all decide

/-- Claim C6: the built report is sorted in weakly decreasing order of
`time_perc`; ties are broken by original URL encounter order (for every
key value, the report's records with that key are a prefix-preserving
subsequence equal, up to truncation, to the built records with that key
in encounter order); and the report is truncated to at most `limit`
records. -/
theorem claim_C6 (stats : List (String × List ℚ)) (total_count : Nat)
    (total_time : ℚ) (rs : Nat) (recs rep : List ReportRecord)
    (hmap : mapExcept (fun p => buildRecord total_count total_time p.1 p.2)
      stats = .ok recs)
    (hrep : prepare_report_data stats total_count total_time rs = .ok rep) :
    List.Pairwise (fun a b => b.time_perc ≤ a.time_perc) rep ∧
    rep.length ≤ rs ∧
    (∀ t : ℚ, ∃ suffix,
      rep.filter (fun r => decide (r.time_perc = t)) ++ suffix =
        recs.filter (fun r => decide (r.time_perc = t))) := by
  rw [prepare_eq stats total_count total_time rs recs hmap] at hrep
  obtain rfl := Except.ok.inj hrep
  refine ⟨?_, ?_, ?_⟩
  · exact List.Pairwise.sublist (List.take_sublist _ _)
      (sortDesc_pairwise recs)
  · rw [List.length_take]
    exact min_le_left _ _
  · intro t
    refine ⟨((sortDesc recs).drop rs).filter
      (fun r => decide (r.time_perc = t)), ?_⟩
    rw [← List.filter_append, List.take_append_drop, sortDesc_filter]

/-- Witness for C6 at the spec's ranking example: URLs A (time_sum 10)
and B (time_sum 90) out of totalTime 100; B's record has
`time_perc = 90` and ranks before A's, and the report truncates to the
configured single entry. -/
theorem claim_C6_witness :
    prepare_report_data [(("A"), [(10 : ℚ)]), (("B"), [(90 : ℚ)])] 100 100 1 =
      .ok [{ url := "B", count := 1, count_perc := 1, time_sum := 90,
             time_max := 90, time_perc := 90, time_avg := 90,
             time_med := 90 }] ∧
    List.Pairwise (fun a b => b.time_perc ≤ a.time_perc)
      ([{ url := "B", count := 1, count_perc := 1, time_sum := 90,
          time_max := 90, time_perc := 90, time_avg := 90,
          time_med := 90 }] : List ReportRecord) ∧
    ([{ url := "B", count := 1, count_perc := 1, time_sum := 90,
        time_max := 90, time_perc := 90, time_avg := 90,
        time_med := 90 }] : List ReportRecord).length ≤ 1 := by
  have hmap : mapExcept
      (fun p => buildRecord 100 100 p.1 p.2)
      [(("A"), [(10 : ℚ)]), (("B"), [(90 : ℚ)])] =
      .ok [{ url := "A", count := 1, count_perc := 1, time_sum := 10,
             time_max := 10, time_perc := 10, time_avg := 10,
             time_med := 10 },
           { url := "B", count := 1, count_perc := 1, time_sum := 90,
             time_max := 90, time_perc := 90, time_avg := 90,
             time_med := 90 }] := by
    with_unfolding_all decide
  have hrep : prepare_report_data
      [(("A"), [(10 : ℚ)]), (("B"), [(90 : ℚ)])] 100 100 1 =
      .ok [{ url := "B", count := 1, count_perc := 1, time_sum := 90,
             time_max := 90, time_perc := 90, time_avg := 90,
             time_med := 90 }] := by
    with_unfolding_all decide
  obtain ⟨hp, hl, _⟩ := claim_C6 _ 100 100 1 _ _ hmap hrep
  exact ⟨hrep, hp, hl⟩
